import Mathlib

set_option maxRecDepth 10000
set_option maxHeartbeats 1000000

/-!
Shallow embedding of `RecordToDiskPlugin` (a streaming PCM-to-WAV file
writer) and proofs about it.

Modelling conventions:
* The output file is a `List Nat` of byte values; `fs.writeSync(fd, buf,
  off, len, pos)` is an in-place positional overwrite, and a write on the
  sequential `fs.WriteStream` appends at the end of the file.
* `outStream.end()` closes the stream and the underlying file descriptor
  (the source comments that `end()` closes the FD).  A positional
  `fs.writeSync` on the closed descriptor fails with an I/O error (EBADF)
  before writing anything; a stream `write` after `end()` is rejected by
  the stream (the error surfaces only asynchronously on the stream), so it
  leaves the file unchanged while the rest of the method body still runs.
* JavaScript exceptions propagate to the caller, but mutations of the
  plugin object performed before the throw persist; operations therefore
  return `State × Option WErr`, the state after the call together with the
  exception (if any) that escapes the call.
* `Buffer.writeUInt32LE` / `writeUInt16LE` are modelled as little-endian
  encodings mod 2^32 / 2^16; theorems about field values assume the value
  is in range (where Node would otherwise throw a range error).
* The optional forwarding callback is modelled by the observable that
  matters to the writer: whether it throws for the given samples/userId.
-/

namespace RecordToDisk

/-- Errors that can escape a call: a synchronous filesystem error
(e.g. EBADF from `fs.writeSync` on a closed descriptor), an exception
thrown by the user-supplied forwarding callback, or the
`InvalidStateError` the spec asks for (never produced by this code). -/
inductive WErr
  | ioError
  | callbackError
  | invalidStateError
deriving DecidableEq, Repr

/-- One frame as consumed by `onAudioData`: the fields destructured from
`AudioDataWithUser` (`bitsPerSample`, `sampleRate`, `channelCount`,
`samples`) plus the `userId` passed to the forwarding callback.
`samples` models the `Int16Array`. -/
structure AudioData where
  bitsPerSample : Nat
  sampleRate : Nat
  channelCount : Nat
  samples : List Int
  userId : Option String := none

/-- Forwarding callback behaviour: `true` means the callback throws when
invoked with these samples and userId. -/
abbrev Fwd := List Int → Option String → Bool

/-- The mutable fields of `RecordToDiskPlugin`, together with the bytes of
the output file and whether the stream (and file descriptor) has been
closed by `outStream.end()`. -/
structure PluginState where
  file : List Nat
  streamEnded : Bool
  headerWritten : Bool
  totalDataBytes : Nat
  wavSampleRate : Nat
  wavBitsPerSample : Nat
  wavNumChannels : Nat
deriving DecidableEq, Repr

/-- State right after the constructor: file opened with flag `w` (hence
truncated to empty), no header written, zero data bytes, format fields at
their zero initialisers. -/
def initState : PluginState :=
  { file := []
    streamEnded := false
    headerWritten := false
    totalDataBytes := 0
    wavSampleRate := 0
    wavBitsPerSample := 0
    wavNumChannels := 0 }

/-- Little-endian bytes of one 16-bit sample (two's complement), i.e. the
bytes `Buffer.from(samples.buffer)` holds for one `Int16Array` entry. -/
def int16Bytes (s : Int) : List Nat :=
  [(s % 65536).toNat % 256, (s % 65536).toNat / 256]

/-- The raw payload bytes of a frame: the `Int16Array`'s buffer. -/
def pcmBytes (samples : List Int) : List Nat :=
  (samples.map int16Bytes).flatten

/-- Little-endian 16-bit encoding (`Buffer.writeUInt16LE`, value taken
mod 2^16). -/
def le16 (n : Nat) : List Nat :=
  [n % 256, n / 256 % 256]

/-- Little-endian 32-bit encoding (`Buffer.writeUInt32LE`, value taken
mod 2^32). -/
def le32 (n : Nat) : List Nat :=
  [n % 256, n / 256 % 256, n / 65536 % 256, n / 16777216 % 256]

/-- ASCII bytes of a string (`buffer.write(s, offset)`). -/
def asciiBytes (s : String) : List Nat :=
  s.data.map Char.toNat

/-- Overwrite `bs` into `buf` starting at `pos` (used both for
`buffer.write*` into the 44-byte header buffer and for positional
`fs.writeSync` into the file; extends the file when writing at its end). -/
def writeBytesAt (buf : List Nat) (pos : Nat) (bs : List Nat) : List Nat :=
  buf.take pos ++ bs ++ buf.drop (pos + bs.length)

/-- The 44-byte placeholder header built by `writeWavHeaderPlaceholder`:
a zero-filled buffer overlaid field by field in source order.  `byteRate`
and `blockAlign` use `bitsPerSample / 8` exactly as the source computes
them (exact for byte-aligned sample widths). -/
def wavHeaderPlaceholder (rate bits ch : Nat) : List Nat :=
  let h0 := List.replicate 44 0
  let h1 := writeBytesAt h0 0 (asciiBytes "RIFF")
  let h2 := writeBytesAt h1 8 (asciiBytes "WAVE")
  let h3 := writeBytesAt h2 12 (asciiBytes "fmt ")
  let h4 := writeBytesAt h3 16 (le32 16)
  let h5 := writeBytesAt h4 20 (le16 1)
  let h6 := writeBytesAt h5 22 (le16 ch)
  let h7 := writeBytesAt h6 24 (le32 rate)
  let h8 := writeBytesAt h7 28 (le32 (rate * ch * (bits / 8)))
  let h9 := writeBytesAt h8 32 (le16 (ch * (bits / 8)))
  let h10 := writeBytesAt h9 34 (le16 bits)
  writeBytesAt h10 36 (asciiBytes "data")

/-- Lines 50–58 of the source: append the PCM buffer via the stream (a
write after `end()` is rejected by the stream and the file is unchanged),
increment `totalDataBytes` by the buffer length, then invoke the optional
forwarding callback, whose exception (if it throws) escapes the call. -/
def writeAndForward (cb : Option Fwd) (s : PluginState) (d : AudioData) :
    PluginState × Option WErr :=
  let pcm := pcmBytes d.samples
  let s1 := if s.streamEnded then s else { s with file := s.file ++ pcm }
  let s2 := { s1 with totalDataBytes := s1.totalDataBytes + pcm.length }
  match cb with
  | none => (s2, none)
  | some f => if f d.samples d.userId then (s2, some WErr.callbackError) else (s2, none)

/-- `onAudioData`: on the first frame, latch the format fields and write
the 44-byte placeholder header at offset 0 with `fs.writeSync` (which
fails with an I/O error if the descriptor was already closed, after the
format fields were assigned but before `headerWritten` is set); then
append the payload, count it, and forward. -/
def onAudioData (cb : Option Fwd) (s : PluginState) (d : AudioData) :
    PluginState × Option WErr :=
  if s.headerWritten then
    writeAndForward cb s d
  else
    let s1 := { s with
      wavSampleRate := d.sampleRate
      wavBitsPerSample := d.bitsPerSample
      wavNumChannels := d.channelCount }
    if s1.streamEnded then
      (s1, some WErr.ioError)
    else
      let s2 := { s1 with
        file := writeBytesAt s1.file 0
          (wavHeaderPlaceholder d.sampleRate d.bitsPerSample d.channelCount)
        headerWritten := true }
      writeAndForward cb s2 d

/-- `updateWavHeaderSizes`, run in an environment where the backfill
`fs.writeSync` calls may fail with an I/O error: they fail when the
descriptor is closed (`streamEnded`) or when the environment injects a
filesystem failure (`ioFails`, e.g. a disk error); a failing write throws
before modifying the file.  Otherwise the two 4-byte little-endian size
fields are overwritten at offsets 4 and 40. -/
def updateWavHeaderSizesEnv (ioFails : Bool) (s : PluginState) :
    PluginState × Option WErr :=
  if s.streamEnded || ioFails then
    (s, some WErr.ioError)
  else
    let f1 := writeBytesAt s.file 4 (le32 (36 + s.totalDataBytes))
    let f2 := writeBytesAt f1 40 (le32 s.totalDataBytes)
    ({ s with file := f2 }, none)

/-- `updateWavHeaderSizes` when the filesystem itself does not fail. -/
def updateWavHeaderSizes (s : PluginState) : PluginState × Option WErr :=
  updateWavHeaderSizesEnv false s

/-- `cleanup`, run in an environment where the backfill writes may fail
(`ioFails`): if a header was written and data bytes were counted, backfill
the sizes — an exception there propagates before `outStream.end()` is
reached — and otherwise (or afterwards) end the stream, closing the
descriptor. -/
def cleanupEnv (ioFails : Bool) (s : PluginState) : PluginState × Option WErr :=
  if s.headerWritten = true ∧ 0 < s.totalDataBytes then
    match updateWavHeaderSizesEnv ioFails s with
    | (s1, some e) => (s1, some e)
    | (s1, none) => ({ s1 with streamEnded := true }, none)
  else
    ({ s with streamEnded := true }, none)

/-- `cleanup` when the filesystem itself does not fail (a second call can
still fail, because the first call closed the descriptor). -/
def cleanup (s : PluginState) : PluginState × Option WErr :=
  cleanupEnv false s

/-- Run a list of frames through `onAudioData` with no forwarding
callback, keeping the state (no callback means no exception escapes). -/
def ingestAll (s : PluginState) (ds : List AudioData) : PluginState :=
  ds.foldl (fun t d => (onAudioData none t d).1) s

/-- Concatenated payload bytes of a list of frames, in order. -/
def pcmAll (ds : List AudioData) : List Nat :=
  (ds.map fun d => pcmBytes d.samples).flatten

/-- Byte of a file at an offset (0 past the end). -/
def byteAt (f : List Nat) (i : Nat) : Nat :=
  (f[i]?).getD 0

/-- Decode the little-endian 16-bit field at an offset. -/
def readLE16 (f : List Nat) (pos : Nat) : Nat :=
  byteAt f pos + 256 * byteAt f (pos + 1)

/-- Decode the little-endian 32-bit field at an offset. -/
def readLE32 (f : List Nat) (pos : Nat) : Nat :=
  byteAt f pos + 256 * byteAt f (pos + 1) +
    65536 * byteAt f (pos + 2) + 16777216 * byteAt f (pos + 3)

/-- States reachable through the writer's documented lifecycle: from the
constructor, by ingest calls made while the writer is live (the spec
defines ingest-after-finalize as a caller contract violation and destroys
the state at the end of finalize) with frames whose format fields are
positive (the spec's frame data model), and by finalize. -/
inductive Reachable (cb : Option Fwd) : PluginState → Prop
  | init : Reachable cb initState
  | ingest (s : PluginState) (d : AudioData) :
      Reachable cb s → s.streamEnded = false →
      0 < d.sampleRate → 0 < d.bitsPerSample → 0 < d.channelCount →
      Reachable cb (onAudioData cb s d).1
  | finalize (s : PluginState) :
      Reachable cb s → Reachable cb (cleanup s).1

/-- A sample frame used in concrete instances: 16-bit mono at 16 kHz with
two samples (4 payload bytes). -/
def frameA : AudioData := ⟨16, 16000, 1, [1, 2], none⟩

/-- A second sample frame: 16-bit mono at 16 kHz, one sample (2 payload
bytes). -/
def frameB : AudioData := ⟨16, 16000, 1, [3], none⟩

/-- A frame with an empty samples array (zero payload bytes). -/
def frameEmpty : AudioData := ⟨16, 8000, 1, [], none⟩

/-- A 48 kHz, 16-bit stereo frame (the format of the header-correctness
scenario). -/
def frame48 : AudioData := ⟨16, 48000, 2, [0, 1], none⟩

/-! Helper lemmas about the byte-level primitives. -/

/-- The placeholder header, written out as an explicit 44-byte list. -/
theorem wavHeaderPlaceholder_eq (r b c : Nat) :
    wavHeaderPlaceholder r b c =
      [82, 73, 70, 70,
       0, 0, 0, 0,
       87, 65, 86, 69,
       102, 109, 116, 32,
       16, 0, 0, 0,
       1, 0,
       c % 256, c / 256 % 256,
       r % 256, r / 256 % 256, r / 65536 % 256, r / 16777216 % 256,
       r * c * (b / 8) % 256, r * c * (b / 8) / 256 % 256,
       r * c * (b / 8) / 65536 % 256, r * c * (b / 8) / 16777216 % 256,
       c * (b / 8) % 256, c * (b / 8) / 256 % 256,
       b % 256, b / 256 % 256,
       100, 97, 116, 97,
       0, 0, 0, 0] := rfl

/-- The placeholder header is 44 bytes long. -/
theorem wavHeaderPlaceholder_length (r b c : Nat) :
    (wavHeaderPlaceholder r b c).length = 44 := by
  rw [wavHeaderPlaceholder_eq]; rfl

/-- Reading a byte in the left part of an append. -/
theorem byteAt_append_left (l1 l2 : List Nat) (i : Nat) (h : i < l1.length) :
    byteAt (l1 ++ l2) i = byteAt l1 i := by
  unfold byteAt
  rw [List.getElem?_append, if_pos h]

/-- An in-bounds overwrite does not change the length. -/
theorem length_writeBytesAt (f bs : List Nat) (pos : Nat)
    (h : pos + bs.length ≤ f.length) :
    (writeBytesAt f pos bs).length = f.length := by
  unfold writeBytesAt
  rw [List.length_append, List.length_append, List.length_take, List.length_drop]
  omega

/-- Reading a byte of an in-bounds overwrite: inside the written span it
comes from the written bytes, elsewhere from the original file. -/
theorem byteAt_writeBytesAt (f bs : List Nat) (pos i : Nat)
    (h : pos + bs.length ≤ f.length) :
    byteAt (writeBytesAt f pos bs) i =
      if pos ≤ i ∧ i < pos + bs.length then byteAt bs (i - pos) else byteAt f i := by
  have hlen : (f.take pos).length = pos := by
    rw [List.length_take]; omega
  unfold writeBytesAt byteAt
  rw [List.append_assoc, List.getElem?_append, hlen]
  by_cases h1 : i < pos
  · rw [if_pos h1, if_neg (by omega), List.getElem?_take, if_pos h1]
  · rw [if_neg h1, List.getElem?_append]
    by_cases h2 : i - pos < bs.length
    · rw [if_pos h2, if_pos (by omega)]
    · rw [if_neg h2, if_neg (by omega), List.getElem?_drop]
      have e : pos + bs.length + (i - pos - bs.length) = i := by omega
      rw [e]

/-- Reading back the 32-bit field just written at `pos`. -/
theorem readLE32_writeBytesAt_self (f : List Nat) (pos m : Nat)
    (hb : pos + 4 ≤ f.length) (hm : m < 4294967296) :
    readLE32 (writeBytesAt f pos (le32 m)) pos = m := by
  have hb4 : pos + (le32 m).length ≤ f.length := hb
  unfold readLE32
  rw [byteAt_writeBytesAt f _ pos pos hb4, byteAt_writeBytesAt f _ pos (pos + 1) hb4,
    byteAt_writeBytesAt f _ pos (pos + 2) hb4, byteAt_writeBytesAt f _ pos (pos + 3) hb4]
  simp only [show (le32 m).length = 4 from rfl]
  rw [if_pos (by omega), if_pos (by omega), if_pos (by omega), if_pos (by omega)]
  have e0 : pos - pos = 0 := by omega
  have e1 : pos + 1 - pos = 1 := by omega
  have e2 : pos + 2 - pos = 2 := by omega
  have e3 : pos + 3 - pos = 3 := by omega
  rw [e0, e1, e2, e3]
  show m % 256 + 256 * (m / 256 % 256) + 65536 * (m / 65536 % 256) +
    16777216 * (m / 16777216 % 256) = m
  omega

/-- A 32-bit read is unaffected by an overwrite of a disjoint span. -/
theorem readLE32_writeBytesAt_disjoint (f bs : List Nat) (pos p : Nat)
    (h : pos + bs.length ≤ f.length) (hd : p + 4 ≤ pos ∨ pos + bs.length ≤ p) :
    readLE32 (writeBytesAt f pos bs) p = readLE32 f p := by
  unfold readLE32
  rw [byteAt_writeBytesAt f _ pos p h, byteAt_writeBytesAt f _ pos (p + 1) h,
    byteAt_writeBytesAt f _ pos (p + 2) h, byteAt_writeBytesAt f _ pos (p + 3) h]
  rw [if_neg (by omega), if_neg (by omega), if_neg (by omega), if_neg (by omega)]

/-! Helper lemmas about runs of the writer. -/

/-- Payload bytes of a cons of frames. -/
theorem pcmAll_cons (d : AudioData) (ds : List AudioData) :
    pcmAll (d :: ds) = pcmBytes d.samples ++ pcmAll ds := by
  simp [pcmAll]

/-- The total payload length is the sum of the frames' payload lengths. -/
theorem pcmAll_length (ds : List AudioData) :
    (pcmAll ds).length = (ds.map fun d => (pcmBytes d.samples).length).sum := by
  simp only [pcmAll, List.length_flatten, List.map_map]
  rfl

/-- An ingest step on a live writer that already wrote its header appends
the payload and counts it, and touches nothing else. -/
theorem onAudioData_none_written (s : PluginState) (d : AudioData)
    (h1 : s.headerWritten = true) (h2 : s.streamEnded = false) :
    onAudioData none s d =
      ({ s with
          file := s.file ++ pcmBytes d.samples
          totalDataBytes := s.totalDataBytes + (pcmBytes d.samples).length }, none) := by
  simp [onAudioData, writeAndForward, h1, h2]

/-- The first ingest on the fresh state, as a single step. -/
theorem onAudioData_init (d : AudioData) :
    (onAudioData none initState d).1 =
      ⟨wavHeaderPlaceholder d.sampleRate d.bitsPerSample d.channelCount ++
          pcmBytes d.samples, false, true, (pcmBytes d.samples).length,
        d.sampleRate, d.bitsPerSample, d.channelCount⟩ := by
  simp [onAudioData, initState, writeAndForward, writeBytesAt]

/-- `writeAndForward` never touches the header flag, the stream flag or
the latched format fields, whatever the callback does. -/
theorem writeAndForward_fst_proj (cb : Option Fwd) (s : PluginState) (d : AudioData) :
    (writeAndForward cb s d).1.headerWritten = s.headerWritten ∧
      (writeAndForward cb s d).1.streamEnded = s.streamEnded ∧
      (writeAndForward cb s d).1.wavSampleRate = s.wavSampleRate ∧
      (writeAndForward cb s d).1.wavBitsPerSample = s.wavBitsPerSample ∧
      (writeAndForward cb s d).1.wavNumChannels = s.wavNumChannels := by
  unfold writeAndForward
  by_cases he : s.streamEnded = true
  · rcases cb with _ | f
    · simp [he]
    · by_cases ht : f d.samples d.userId = true
      · simp [he, ht]
      · simp [he, ht]
  · rcases cb with _ | f
    · simp [he]
    · by_cases ht : f d.samples d.userId = true
      · simp [he, ht]
      · simp [he, ht]

/-- An ingest on a state that already wrote its header keeps the header
flag and the latched format fields. -/
theorem onAudioData_written_fst (cb : Option Fwd) (s : PluginState) (d : AudioData)
    (hw : s.headerWritten = true) :
    (onAudioData cb s d).1.headerWritten = true ∧
      (onAudioData cb s d).1.wavSampleRate = s.wavSampleRate ∧
      (onAudioData cb s d).1.wavBitsPerSample = s.wavBitsPerSample ∧
      (onAudioData cb s d).1.wavNumChannels = s.wavNumChannels := by
  unfold onAudioData
  rw [if_pos hw]
  have hp := writeAndForward_fst_proj cb s d
  exact ⟨hw ▸ hp.1, hp.2.2.1, hp.2.2.2.1, hp.2.2.2.2⟩

/-- A first ingest on a live state sets the header flag and latches the
frame's format fields. -/
theorem onAudioData_first_fst (cb : Option Fwd) (s : PluginState) (d : AudioData)
    (hw : s.headerWritten = false) (he : s.streamEnded = false) :
    (onAudioData cb s d).1.headerWritten = true ∧
      (onAudioData cb s d).1.wavSampleRate = d.sampleRate ∧
      (onAudioData cb s d).1.wavBitsPerSample = d.bitsPerSample ∧
      (onAudioData cb s d).1.wavNumChannels = d.channelCount := by
  have hu : onAudioData cb s d =
      writeAndForward cb
        { s with
            wavSampleRate := d.sampleRate
            wavBitsPerSample := d.bitsPerSample
            wavNumChannels := d.channelCount
            file := writeBytesAt s.file 0
              (wavHeaderPlaceholder d.sampleRate d.bitsPerSample d.channelCount)
            headerWritten := true } d := by
    simp [onAudioData, hw, he]
  rw [hu]
  have hp := writeAndForward_fst_proj cb
    { s with
        wavSampleRate := d.sampleRate
        wavBitsPerSample := d.bitsPerSample
        wavNumChannels := d.channelCount
        file := writeBytesAt s.file 0
          (wavHeaderPlaceholder d.sampleRate d.bitsPerSample d.channelCount)
        headerWritten := true } d
  exact ⟨hp.1, hp.2.2.1, hp.2.2.2.1, hp.2.2.2.2⟩

/-- Finalize keeps the header flag and the latched format fields. -/
theorem cleanup_fst_proj (s : PluginState) :
    (cleanup s).1.headerWritten = s.headerWritten ∧
      (cleanup s).1.wavSampleRate = s.wavSampleRate ∧
      (cleanup s).1.wavBitsPerSample = s.wavBitsPerSample ∧
      (cleanup s).1.wavNumChannels = s.wavNumChannels := by
  by_cases hc : s.headerWritten = true ∧ 0 < s.totalDataBytes
  · by_cases he : s.streamEnded = true
    · simp [cleanup, cleanupEnv, updateWavHeaderSizesEnv, hc, he]
    · simp [cleanup, cleanupEnv, updateWavHeaderSizesEnv, hc, he]
  · simp [cleanup, cleanupEnv, hc]

/-- A 32-bit read entirely inside the left part of an append. -/
theorem readLE32_append_left (l1 l2 : List Nat) (pos : Nat) (h : pos + 4 ≤ l1.length) :
    readLE32 (l1 ++ l2) pos = readLE32 l1 pos := by
  unfold readLE32
  rw [byteAt_append_left _ _ _ (by omega), byteAt_append_left _ _ _ (by omega),
    byteAt_append_left _ _ _ (by omega), byteAt_append_left _ _ _ (by omega)]

/-- A 16-bit read entirely inside the left part of an append. -/
theorem readLE16_append_left (l1 l2 : List Nat) (pos : Nat) (h : pos + 2 ≤ l1.length) :
    readLE16 (l1 ++ l2) pos = readLE16 l1 pos := by
  unfold readLE16
  rw [byteAt_append_left _ _ _ (by omega), byteAt_append_left _ _ _ (by omega)]

/-- The ByteRate field of the placeholder header. -/
theorem wavHeader_byteRate (r b c : Nat) (h : r * c * (b / 8) < 4294967296) :
    readLE32 (wavHeaderPlaceholder r b c) 28 = r * c * (b / 8) := by
  rw [wavHeaderPlaceholder_eq]
  show r * c * (b / 8) % 256 + 256 * (r * c * (b / 8) / 256 % 256) +
      65536 * (r * c * (b / 8) / 65536 % 256) +
      16777216 * (r * c * (b / 8) / 16777216 % 256) = r * c * (b / 8)
  omega

/-- The BlockAlign field of the placeholder header. -/
theorem wavHeader_blockAlign (r b c : Nat) (h : c * (b / 8) < 65536) :
    readLE16 (wavHeaderPlaceholder r b c) 32 = c * (b / 8) := by
  rw [wavHeaderPlaceholder_eq]
  show c * (b / 8) % 256 + 256 * (c * (b / 8) / 256 % 256) = c * (b / 8)
  omega

/-- Running a list of frames from a live, header-written state. -/
theorem ingestAll_written (ds : List AudioData) :
    ∀ (fl : List Nat) (n r b c : Nat),
      ingestAll ⟨fl, false, true, n, r, b, c⟩ ds =
        ⟨fl ++ pcmAll ds, false, true, n + (pcmAll ds).length, r, b, c⟩ := by
  induction ds with
  | nil =>
      intro fl n r b c
      simp [ingestAll, pcmAll]
  | cons d ds ih =>
      intro fl n r b c
      rw [ingestAll, List.foldl_cons]
      have hstep : (onAudioData none (⟨fl, false, true, n, r, b, c⟩ : PluginState) d).1 =
          (⟨fl ++ pcmBytes d.samples, false, true, n + (pcmBytes d.samples).length,
            r, b, c⟩ : PluginState) := by
        rw [onAudioData_none_written _ d rfl rfl]
      rw [hstep]
      rw [show List.foldl (fun t d => (onAudioData none t d).1)
          (⟨fl ++ pcmBytes d.samples, false, true, n + (pcmBytes d.samples).length,
            r, b, c⟩ : PluginState) ds =
        ingestAll ⟨fl ++ pcmBytes d.samples, false, true,
          n + (pcmBytes d.samples).length, r, b, c⟩ ds from rfl]
      rw [ih]
      rw [pcmAll_cons]
      simp [List.append_assoc, List.length_append, Nat.add_assoc]

/-- The first ingest from the fresh state latches the format, writes the
placeholder header and appends the first payload. -/
theorem ingestAll_init (d : AudioData) (ds : List AudioData) :
    ingestAll initState (d :: ds) =
      ⟨wavHeaderPlaceholder d.sampleRate d.bitsPerSample d.channelCount ++ pcmAll (d :: ds),
        false, true, (pcmAll (d :: ds)).length,
        d.sampleRate, d.bitsPerSample, d.channelCount⟩ := by
  rw [ingestAll, List.foldl_cons]
  have hstep : (onAudioData none initState d).1 =
      (⟨wavHeaderPlaceholder d.sampleRate d.bitsPerSample d.channelCount ++
          pcmBytes d.samples, false, true, (pcmBytes d.samples).length,
        d.sampleRate, d.bitsPerSample, d.channelCount⟩ : PluginState) := by
    simp [onAudioData, initState, writeAndForward, writeBytesAt]
  rw [hstep]
  rw [show List.foldl (fun t d => (onAudioData none t d).1)
      (⟨wavHeaderPlaceholder d.sampleRate d.bitsPerSample d.channelCount ++
          pcmBytes d.samples, false, true, (pcmBytes d.samples).length,
        d.sampleRate, d.bitsPerSample, d.channelCount⟩ : PluginState) ds =
    ingestAll ⟨wavHeaderPlaceholder d.sampleRate d.bitsPerSample d.channelCount ++
        pcmBytes d.samples, false, true, (pcmBytes d.samples).length,
      d.sampleRate, d.bitsPerSample, d.channelCount⟩ ds from rfl]
  rw [ingestAll_written]
  rw [pcmAll_cons]
  simp [List.append_assoc, List.length_append]

/-- Finalize on a live writer that wrote its header and counted data:
backfill the two size fields and close the stream. -/
theorem cleanup_backfill (s : PluginState) (h1 : s.headerWritten = true)
    (h2 : 0 < s.totalDataBytes) (h3 : s.streamEnded = false) :
    cleanup s =
      ({ s with
          file := writeBytesAt (writeBytesAt s.file 4 (le32 (36 + s.totalDataBytes))) 40
            (le32 s.totalDataBytes)
          streamEnded := true }, none) := by
  simp [cleanup, cleanupEnv, updateWavHeaderSizesEnv, h1, h2, h3]

/-- Re-setting `streamEnded` on an already-ended state is the identity. -/
theorem setEnded_of_ended (s : PluginState) (h : s.streamEnded = true) :
    ({ s with streamEnded := true } : PluginState) = s := by
  cases s; simp_all

/-- Finalizing a writer whose stream is already closed leaves the state
unchanged (the backfill writes, if attempted, fail before writing). -/
theorem cleanup_of_ended (s : PluginState) (h : s.streamEnded = true) :
    (cleanup s).1 = s := by
  by_cases hc : s.headerWritten = true ∧ 0 < s.totalDataBytes
  · simp [cleanup, cleanupEnv, updateWavHeaderSizesEnv, hc, h]
  · simp only [cleanup, cleanupEnv, if_neg hc]
    exact setEnded_of_ended s h

/-- Finalize always leaves the stream-ended flag set in the fail-free
filesystem model (on an error path the flag was already set). -/
theorem cleanup_ends (s : PluginState) : (cleanup s).1.streamEnded = true := by
  by_cases hc : s.headerWritten = true ∧ 0 < s.totalDataBytes
  · by_cases he : s.streamEnded = true
    · simp [cleanup, cleanupEnv, updateWavHeaderSizesEnv, hc, he]
    · simp [cleanup, cleanupEnv, updateWavHeaderSizesEnv, hc, he]
  · simp [cleanup, cleanupEnv, hc]

/-! Claim theorems. -/

/-- C1 (amended): for any sequence of ingested frames with payload byte
lengths `b_1..b_n` whose sum is positive (and small enough for the 32-bit
size fields), after finalize the declared ChunkSize at offset 4 is
`36 + Σ b_i`, the Subchunk2Size at offset 40 is `Σ b_i`, and the file is
`44 + Σ b_i` bytes long. -/
theorem c1_sizes_after_finalize (ds : List AudioData)
    (hpos : 0 < (ds.map fun d => (pcmBytes d.samples).length).sum)
    (hlt : 36 + (ds.map fun d => (pcmBytes d.samples).length).sum < 4294967296) :
    readLE32 ((cleanup (ingestAll initState ds)).1.file) 4 =
        36 + (ds.map fun d => (pcmBytes d.samples).length).sum ∧
      readLE32 ((cleanup (ingestAll initState ds)).1.file) 40 =
        (ds.map fun d => (pcmBytes d.samples).length).sum ∧
      ((cleanup (ingestAll initState ds)).1.file).length =
        44 + (ds.map fun d => (pcmBytes d.samples).length).sum := by
  rw [← pcmAll_length] at hpos hlt ⊢
  cases ds with
  | nil => simp [pcmAll] at hpos
  | cons d rest =>
      rw [ingestAll_init]
      rw [cleanup_backfill _ rfl hpos rfl]
      dsimp only
      have hfl : (wavHeaderPlaceholder d.sampleRate d.bitsPerSample d.channelCount ++
          pcmAll (d :: rest)).length = 44 + (pcmAll (d :: rest)).length := by
        rw [List.length_append, wavHeaderPlaceholder_length]
      have hb1 : 4 + (le32 (36 + (pcmAll (d :: rest)).length)).length ≤
          (wavHeaderPlaceholder d.sampleRate d.bitsPerSample d.channelCount ++
            pcmAll (d :: rest)).length := by
        rw [hfl, show (le32 (36 + (pcmAll (d :: rest)).length)).length = 4 from rfl]
        omega
      have h1len : (writeBytesAt (wavHeaderPlaceholder d.sampleRate d.bitsPerSample
          d.channelCount ++ pcmAll (d :: rest)) 4
            (le32 (36 + (pcmAll (d :: rest)).length))).length =
          44 + (pcmAll (d :: rest)).length := by
        rw [length_writeBytesAt _ _ _ hb1, hfl]
      have hb2 : 40 + (le32 ((pcmAll (d :: rest)).length)).length ≤
          (writeBytesAt (wavHeaderPlaceholder d.sampleRate d.bitsPerSample
            d.channelCount ++ pcmAll (d :: rest)) 4
              (le32 (36 + (pcmAll (d :: rest)).length))).length := by
        rw [h1len, show (le32 ((pcmAll (d :: rest)).length)).length = 4 from rfl]
        omega
      refine ⟨?_, ?_, ?_⟩
      · rw [readLE32_writeBytesAt_disjoint _ _ _ _ hb2 (by
          rw [show (le32 ((pcmAll (d :: rest)).length)).length = 4 from rfl]; omega)]
        exact readLE32_writeBytesAt_self _ _ _ (by rw [hfl]; omega) hlt
      · exact readLE32_writeBytesAt_self _ _ _ (by rw [h1len]; omega) (by omega)
      · rw [length_writeBytesAt _ _ _ hb2, h1len]

/-- C1 counterexample: a single ingested frame with an empty payload (sum
of payload lengths 0) leaves the placeholder ChunkSize 0 in the file, not
`36 + 0`: `cleanup` only backfills when `totalDataBytes > 0`. -/
theorem c1_sizes_counterexample :
    ¬ (readLE32 ((cleanup (ingestAll initState [frameEmpty])).1.file) 4 = 36 + 0 ∧
        readLE32 ((cleanup (ingestAll initState [frameEmpty])).1.file) 40 = 0 ∧
        ((cleanup (ingestAll initState [frameEmpty])).1.file).length = 44 + 0) := by
  decide

/-- C1 witness: the amended round-trip property evaluated on one concrete
frame with 4 payload bytes. -/
theorem c1_sizes_witness :
    readLE32 ((cleanup (ingestAll initState [frameA])).1.file) 4 =
        36 + ([frameA].map fun d => (pcmBytes d.samples).length).sum ∧
      readLE32 ((cleanup (ingestAll initState [frameA])).1.file) 40 =
        ([frameA].map fun d => (pcmBytes d.samples).length).sum ∧
      ((cleanup (ingestAll initState [frameA])).1.file).length =
        44 + ([frameA].map fun d => (pcmBytes d.samples).length).sum :=
  c1_sizes_after_finalize [frameA] (by decide) (by decide)

/-- C5: a writer that is finalized without any ingest closes the stream
without writing anything: the file stays zero bytes long, no header and
no error. -/
theorem c5_empty_stream :
    cleanup initState =
      ({ initState with streamEnded := true }, none) ∧
      (cleanup initState).1.file = [] := by
  constructor
  · rfl
  · rfl

/-- C7: ingesting two frames puts the first frame's payload bytes
immediately after the 44-byte header, followed by the second frame's
payload bytes, i.e. the bytes from offset 44 are exactly
`F1 bytes ++ F2 bytes`. -/
theorem c7_order_preservation (d1 d2 : AudioData) :
    (ingestAll initState [d1, d2]).file =
        wavHeaderPlaceholder d1.sampleRate d1.bitsPerSample d1.channelCount ++
          (pcmBytes d1.samples ++ pcmBytes d2.samples) ∧
      (ingestAll initState [d1, d2]).file.drop 44 =
        pcmBytes d1.samples ++ pcmBytes d2.samples := by
  have hp : pcmAll [d1, d2] = pcmBytes d1.samples ++ pcmBytes d2.samples := by
    simp [pcmAll]
  have h := ingestAll_init d1 [d2]
  rw [hp] at h
  have hfile : (ingestAll initState [d1, d2]).file =
      wavHeaderPlaceholder d1.sampleRate d1.bitsPerSample d1.channelCount ++
        (pcmBytes d1.samples ++ pcmBytes d2.samples) := by
    rw [h]
  refine ⟨hfile, ?_⟩
  rw [hfile,
    show (44 : Nat) =
      (wavHeaderPlaceholder d1.sampleRate d1.bitsPerSample d1.channelCount).length from
      (wavHeaderPlaceholder_length _ _ _).symm,
    List.drop_left]

/-- C2 counterexample: `cleanup` has no finalized guard.  After one frame
and one finalize, a second `cleanup` call re-enters the size backfill and
its `fs.writeSync` fails on the closed descriptor, so the second call
raises an I/O error instead of returning immediately with no effect. -/
theorem c2_idempotent_counterexample :
    (cleanup ((cleanup (ingestAll initState [frameA])).1)).2 = some WErr.ioError := by
  decide

/-- C2 (amended): a second finalize is idempotent only in effect on the
state and file bytes: it re-runs the backfill attempt (raising an I/O
error when data was written) but leaves the writer state — including the
on-disk bytes — exactly as after the first finalize. -/
theorem c2_second_finalize_same_state (s : PluginState) :
    (cleanup ((cleanup s).1)).1 = (cleanup s).1 :=
  cleanup_of_ended _ (cleanup_ends s)

/-- C3 counterexample: after finalize, an ingest call does not fail with
an `InvalidStateError`; it silently increments `totalDataBytes` even
though the stream write is rejected. -/
theorem c3_invalid_state_counterexample :
    (onAudioData none ((cleanup (ingestAll initState [frameA])).1) frameB).1.totalDataBytes ≠
        ((cleanup (ingestAll initState [frameA])).1).totalDataBytes ∧
      (onAudioData none ((cleanup (ingestAll initState [frameA])).1) frameB).2 ≠
        some WErr.invalidStateError := by
  decide

/-- C3 (amended): ingest after a finalize that wrote a header raises no
`InvalidStateError` at all: the finalized file bytes are left unchanged
(the stream rejects the write, surfacing the failure only asynchronously)
but `totalDataBytes` is still incremented by the payload length. -/
theorem c3_ingest_after_finalize (s : PluginState) (d : AudioData)
    (h1 : s.streamEnded = true) (h2 : s.headerWritten = true) :
    onAudioData none s d =
      ({ s with totalDataBytes := s.totalDataBytes + (pcmBytes d.samples).length }, none) := by
  simp [onAudioData, writeAndForward, h1, h2]

/-- C3 witness: the amended statement evaluated on a finalized writer. -/
theorem c3_ingest_after_finalize_witness :
    onAudioData none ((cleanup (ingestAll initState [frameA])).1) frameB =
      ({ ((cleanup (ingestAll initState [frameA])).1) with
          totalDataBytes :=
            ((cleanup (ingestAll initState [frameA])).1).totalDataBytes +
              (pcmBytes frameB.samples).length }, none) :=
  c3_ingest_after_finalize _ frameB (by decide) (by decide)

/-- C4 counterexample: the forwarding callback is invoked with no
try/catch, so its exception escapes the `onAudioData` call instead of
being contained. -/
theorem c4_forwarding_counterexample :
    (onAudioData (some fun _ _ => true) initState frameA).2 = some WErr.callbackError := by
  decide

/-- C4 (amended): the payload write and the `totalDataBytes` increment
happen before the forwarding callback runs, so a throwing callback cannot
prevent them — but the callback's exception is not contained: it
propagates out of the ingest call. -/
theorem c4_forwarding_isolation (f : Fwd) (s : PluginState) (d : AudioData)
    (hlive : s.streamEnded = false) (hthrow : f d.samples d.userId = true) :
    (onAudioData (some f) s d).1.totalDataBytes =
        s.totalDataBytes + (pcmBytes d.samples).length ∧
      pcmBytes d.samples <:+ (onAudioData (some f) s d).1.file ∧
      (onAudioData (some f) s d).2 = some WErr.callbackError := by
  by_cases hw : s.headerWritten = true
  · have hr : onAudioData (some f) s d =
        ({ s with
            file := s.file ++ pcmBytes d.samples
            totalDataBytes := s.totalDataBytes + (pcmBytes d.samples).length },
          some WErr.callbackError) := by
      simp [onAudioData, writeAndForward, hw, hlive, hthrow]
    rw [hr]
    exact ⟨rfl, ⟨s.file, rfl⟩, rfl⟩
  · have hb : s.headerWritten = false := by
      cases hx : s.headerWritten
      · rfl
      · exact absurd hx hw
    have hr : onAudioData (some f) s d =
        ({ s with
            wavSampleRate := d.sampleRate
            wavBitsPerSample := d.bitsPerSample
            wavNumChannels := d.channelCount
            file := writeBytesAt s.file 0
                (wavHeaderPlaceholder d.sampleRate d.bitsPerSample d.channelCount) ++
              pcmBytes d.samples
            headerWritten := true
            totalDataBytes := s.totalDataBytes + (pcmBytes d.samples).length },
          some WErr.callbackError) := by
      simp [onAudioData, writeAndForward, hb, hlive, hthrow]
    rw [hr]
    exact ⟨rfl, ⟨writeBytesAt s.file 0
      (wavHeaderPlaceholder d.sampleRate d.bitsPerSample d.channelCount), rfl⟩, rfl⟩

/-- C4 witness: the amended statement evaluated on a fresh writer, one
frame and a callback that always throws. -/
theorem c4_forwarding_isolation_witness :
    (onAudioData (some fun _ _ => true) initState frameA).1.totalDataBytes =
        initState.totalDataBytes + (pcmBytes frameA.samples).length ∧
      pcmBytes frameA.samples <:+ (onAudioData (some fun _ _ => true) initState frameA).1.file ∧
      (onAudioData (some fun _ _ => true) initState frameA).2 = some WErr.callbackError :=
  c4_forwarding_isolation (fun _ _ => true) initState frameA rfl rfl

/-- C6: the header written on the first ingested frame has the documented
layout: 'RIFF' at 0, 'WAVE' at 8, 'fmt ' at 12, Subchunk1Size 16 at 16,
AudioFormat 1 at 20, ByteRate `sampleRate * channelCount * bitsPerSample/8`
little-endian at 28, BlockAlign `channelCount * bitsPerSample/8` at 32,
and 'data' at 36.  The divisibility hypothesis keeps the model's natural
division `bitsPerSample / 8` exact, matching the source's arithmetic; the
bounds keep the fields inside their 32- and 16-bit encodings. -/
theorem c6_header_layout (d : AudioData)
    (_hdiv : 8 ∣ d.bitsPerSample)
    (hbr : d.sampleRate * d.channelCount * (d.bitsPerSample / 8) < 4294967296)
    (hba : d.channelCount * (d.bitsPerSample / 8) < 65536) :
    readLE32 (onAudioData none initState d).1.file 28 =
        d.sampleRate * d.channelCount * (d.bitsPerSample / 8) ∧
      readLE16 (onAudioData none initState d).1.file 32 =
        d.channelCount * (d.bitsPerSample / 8) ∧
      [byteAt (onAudioData none initState d).1.file 0,
        byteAt (onAudioData none initState d).1.file 1,
        byteAt (onAudioData none initState d).1.file 2,
        byteAt (onAudioData none initState d).1.file 3] = [82, 73, 70, 70] ∧
      [byteAt (onAudioData none initState d).1.file 8,
        byteAt (onAudioData none initState d).1.file 9,
        byteAt (onAudioData none initState d).1.file 10,
        byteAt (onAudioData none initState d).1.file 11] = [87, 65, 86, 69] ∧
      [byteAt (onAudioData none initState d).1.file 12,
        byteAt (onAudioData none initState d).1.file 13,
        byteAt (onAudioData none initState d).1.file 14,
        byteAt (onAudioData none initState d).1.file 15] = [102, 109, 116, 32] ∧
      readLE32 (onAudioData none initState d).1.file 16 = 16 ∧
      readLE16 (onAudioData none initState d).1.file 20 = 1 ∧
      [byteAt (onAudioData none initState d).1.file 36,
        byteAt (onAudioData none initState d).1.file 37,
        byteAt (onAudioData none initState d).1.file 38,
        byteAt (onAudioData none initState d).1.file 39] = [100, 97, 116, 97] := by
  have hfile : (onAudioData none initState d).1.file =
      wavHeaderPlaceholder d.sampleRate d.bitsPerSample d.channelCount ++
        pcmBytes d.samples := by
    rw [onAudioData_init]
  have hlen : (wavHeaderPlaceholder d.sampleRate d.bitsPerSample d.channelCount).length =
      44 := wavHeaderPlaceholder_length _ _ _
  have hb : ∀ i, i < 44 → byteAt ((onAudioData none initState d).1.file) i =
      byteAt (wavHeaderPlaceholder d.sampleRate d.bitsPerSample d.channelCount) i := by
    intro i hi
    rw [hfile, byteAt_append_left _ _ i (by omega)]
  refine ⟨?_, ?_, ?_, ?_, ?_, ?_, ?_, ?_⟩
  · rw [hfile, readLE32_append_left _ _ _ (by omega), wavHeader_byteRate _ _ _ hbr]
  · rw [hfile, readLE16_append_left _ _ _ (by omega), wavHeader_blockAlign _ _ _ hba]
  · rw [hb 0 (by omega), hb 1 (by omega), hb 2 (by omega), hb 3 (by omega),
      wavHeaderPlaceholder_eq]
    rfl
  · rw [hb 8 (by omega), hb 9 (by omega), hb 10 (by omega), hb 11 (by omega),
      wavHeaderPlaceholder_eq]
    rfl
  · rw [hb 12 (by omega), hb 13 (by omega), hb 14 (by omega), hb 15 (by omega),
      wavHeaderPlaceholder_eq]
    rfl
  · rw [hfile, readLE32_append_left _ _ _ (by omega), wavHeaderPlaceholder_eq]
    rfl
  · rw [hfile, readLE16_append_left _ _ _ (by omega), wavHeaderPlaceholder_eq]
    rfl
  · rw [hb 36 (by omega), hb 37 (by omega), hb 38 (by omega), hb 39 (by omega),
      wavHeaderPlaceholder_eq]
    rfl

/-- C6 witness: for a 48 kHz, 16-bit stereo first frame the written header
has ByteRate 192000 at offset 28 and BlockAlign 4 at offset 32. -/
theorem c6_header_layout_witness :
    readLE32 (onAudioData none initState frame48).1.file 28 = 192000 ∧
      readLE16 (onAudioData none initState frame48).1.file 32 = 4 := by
  have h := c6_header_layout frame48 (by decide) (by decide) (by decide)
  exact ⟨h.1, h.2.1⟩

/-- C8: in every state reachable through the writer's lifecycle (ingests
of frames with positive format fields while live, then finalize — the
spec rules ingest-after-finalize out as a contract violation), the format
fields are set (positive) exactly when `headerWritten` is true; and once
the header is written, no later ingest — whatever format values its frame
carries — and no finalize changes the latched format fields. -/
theorem c8_format_latched (cb : Option Fwd) (s : PluginState) (h : Reachable cb s) :
    (s.headerWritten = true ↔
        0 < s.wavSampleRate ∧ 0 < s.wavBitsPerSample ∧ 0 < s.wavNumChannels) ∧
      (s.headerWritten = true → ∀ (cb2 : Option Fwd) (d : AudioData),
        ((onAudioData cb2 s d).1.wavSampleRate = s.wavSampleRate ∧
          (onAudioData cb2 s d).1.wavBitsPerSample = s.wavBitsPerSample ∧
          (onAudioData cb2 s d).1.wavNumChannels = s.wavNumChannels) ∧
        ((cleanup s).1.wavSampleRate = s.wavSampleRate ∧
          (cleanup s).1.wavBitsPerSample = s.wavBitsPerSample ∧
          (cleanup s).1.wavNumChannels = s.wavNumChannels)) := by
  constructor
  · induction h with
    | init => simp [initState]
    | ingest t d ht he h1 h2 h3 ih =>
        by_cases hw : t.headerWritten = true
        · have hp := onAudioData_written_fst cb t d hw
          rw [hp.1, hp.2.1, hp.2.2.1, hp.2.2.2]
          exact iff_of_true rfl (ih.mp hw)
        · have hb : t.headerWritten = false := by
            cases hx : t.headerWritten
            · rfl
            · exact absurd hx hw
          have hp := onAudioData_first_fst cb t d hb he
          rw [hp.1, hp.2.1, hp.2.2.1, hp.2.2.2]
          exact iff_of_true rfl ⟨h1, h2, h3⟩
    | finalize t ht ih =>
        have hp := cleanup_fst_proj t
        rw [hp.1, hp.2.1, hp.2.2.1, hp.2.2.2]
        exact ih
  · intro hw cb2 d
    have hp := onAudioData_written_fst cb2 s d hw
    have hq := cleanup_fst_proj s
    exact ⟨⟨hp.2.1, hp.2.2.1, hp.2.2.2⟩, hq.2.1, hq.2.2.1, hq.2.2.2⟩

/-- C8 witness: the invariant evaluated on the reachable state after one
ingest of a frame with positive format fields. -/
theorem c8_format_latched_witness :
    ((onAudioData none initState frameA).1.headerWritten = true ↔
        0 < (onAudioData none initState frameA).1.wavSampleRate ∧
          0 < (onAudioData none initState frameA).1.wavBitsPerSample ∧
          0 < (onAudioData none initState frameA).1.wavNumChannels) ∧
      ((onAudioData none initState frameA).1.headerWritten = true →
        ∀ (cb2 : Option Fwd) (d : AudioData),
        ((onAudioData cb2 (onAudioData none initState frameA).1 d).1.wavSampleRate =
            (onAudioData none initState frameA).1.wavSampleRate ∧
          (onAudioData cb2 (onAudioData none initState frameA).1 d).1.wavBitsPerSample =
            (onAudioData none initState frameA).1.wavBitsPerSample ∧
          (onAudioData cb2 (onAudioData none initState frameA).1 d).1.wavNumChannels =
            (onAudioData none initState frameA).1.wavNumChannels) ∧
        ((cleanup (onAudioData none initState frameA).1).1.wavSampleRate =
            (onAudioData none initState frameA).1.wavSampleRate ∧
          (cleanup (onAudioData none initState frameA).1).1.wavBitsPerSample =
            (onAudioData none initState frameA).1.wavBitsPerSample ∧
          (cleanup (onAudioData none initState frameA).1).1.wavNumChannels =
            (onAudioData none initState frameA).1.wavNumChannels)) :=
  c8_format_latched none (onAudioData none initState frameA).1
    (Reachable.ingest initState frameA Reachable.init rfl (by decide) (by decide) (by decide))

/-- C9 counterexample: if the backfill write inside finalize fails with an
I/O error (injected through the environment flag of `cleanupEnv`, whose
`false` instance is definitionally `cleanup`), the exception propagates
before `outStream.end()` is reached, so the stream and descriptor are NOT
closed by the end of the call. -/
theorem c9_release_counterexample :
    (cleanupEnv true (ingestAll initState [frameA])).1.streamEnded = false ∧
      (cleanupEnv true (ingestAll initState [frameA])).2 = some WErr.ioError := by
  decide

/-- C9 (amended): finalize closes the stream on every path on which its
own backfill writes do not raise: with zero frames ingested, with frames
ingested, and after a prior ingest whose forwarding callback threw. -/
theorem c9_release_on_success (s : PluginState) :
    (cleanup s).1.streamEnded = true :=
  cleanup_ends s

/-- C10: the writer is deterministic — two writers constructed without a
forwarding callback and fed equal frame sequences end in byte-identical
files and identical final states. -/
theorem c10_deterministic (ds1 ds2 : List AudioData) (h : ds1 = ds2) :
    (cleanup (ingestAll initState ds1)).1.file =
        (cleanup (ingestAll initState ds2)).1.file ∧
      (cleanup (ingestAll initState ds1)).1 = (cleanup (ingestAll initState ds2)).1 := by
  subst h
  exact ⟨rfl, rfl⟩

/-- C10 witness: determinism evaluated on a concrete frame sequence. -/
theorem c10_deterministic_witness :
    (cleanup (ingestAll initState [frameA, frameB])).1.file =
        (cleanup (ingestAll initState [frameA, frameB])).1.file ∧
      (cleanup (ingestAll initState [frameA, frameB])).1 =
        (cleanup (ingestAll initState [frameA, frameB])).1 :=
  c10_deterministic [frameA, frameB] [frameA, frameB] rfl

end RecordToDisk
